import Mathlib

/-!
Verification of the decision and order-sizing protocol of the quant trading
repository: the Decision Engine (`quant/client/decision_engine.py`,
`DecisionEngine.get_action`) and the Trading Loop Controller (`main.py`).
Python floats are modelled as rationals, Python `round` as round-half-to-even,
optional values (`None`) as `Option`, and raising code as `Except`-valued
functions.
-/

namespace Quant

/-- Trading actions returned by the decision engine
(`"BUY"`, `"SELL"`, `"HOLD"` in the source). -/
inductive Action where
  | BUY
  | SELL
  | HOLD
deriving DecidableEq, Repr

/-- Python's built-in `round` on a rational: round half to even
(banker's rounding), as used at `decision_engine.py` lines 116 and 120. -/
def pyRound (x : ℚ) : ℤ :=
  if x - ⌊x⌋ < 1/2 then ⌊x⌋
  else if 1/2 < x - ⌊x⌋ then ⌊x⌋ + 1
  else if ⌊x⌋ % 2 = 0 then ⌊x⌋ else ⌊x⌋ + 1

/-- Python truthiness of an optional float: `None` and `0` are falsy
(`if not price:` at `decision_engine.py` line 84). -/
def truthy (x : Option ℚ) : Bool :=
  match x with
  | none => false
  | some v => v ≠ 0

/-- The observation vector built at `decision_engine.py` lines 92-101:
`(price, norm_volume, norm_position)` with volume divided by 1,000,000
when truthy (else 0) and position divided by 100. -/
abbrev Obs := ℚ × ℚ × ℚ

/-- Builds the observation the engine feeds to the model
(`decision_engine.py` lines 92-101). -/
def observationOf (price volume : Option ℚ) (current_position : ℚ) : Obs :=
  (price.getD 0,
   if truthy volume then volume.getD 0 / 1000000 else 0,
   current_position / 100)

/-- `DecisionEngine.get_action` (`decision_engine.py` lines 61-149).
`model = some f` embeds a loaded policy whose `predict` either returns an
action value (`Except.ok`) or raises (`Except.error`, landing in the
`except` handler at lines 146-149); `model = none` is the fallback branch
(lines 124-141). Returns `(action, confidence, target_quantity)`. -/
def get_action (model : Option (Obs → Except Unit ℚ)) (price volume : Option ℚ)
    (current_position : ℚ) : Action × ℚ × ℚ :=
  if truthy price = false then (.HOLD, 0, current_position)
  else
    match model with
    | some f =>
      match f (observationOf price volume current_position) with
      | .error _ => (.HOLD, 0, current_position)
      | .ok action_value =>
        let confidence := min 1 (|action_value| * 2)
        if action_value > 1/10 then
          (.BUY, confidence, current_position + (pyRound (10 * confidence * action_value) : ℚ))
        else if action_value < -(1/10) then
          (.SELL, confidence,
            max 0 (current_position - (pyRound (10 * confidence * |action_value|) : ℚ)))
        else
          (.HOLD, confidence, current_position)
    | none =>
      if current_position > 10 then (.SELL, 6/10, current_position - 1)
      else if price.getD 0 > 0 then (.BUY, 5/10, current_position + 1)
      else (.HOLD, 3/10, current_position)

/-- Order side submitted by the controller. -/
inductive Side where
  | buy
  | sell
deriving DecidableEq, Repr

/-- The controller's per-symbol order-execution step (`main.py` lines
160-175): BUY with confidence above 0.7 and a positive delta submits a
buy market order for the delta; SELL symmetrically; anything else
submits nothing. -/
def execute_decision (action : Action) (confidence target_qty current_position : ℚ) :
    Option (Side × ℚ) :=
  if action = .BUY ∧ confidence > 7/10 then
    (if target_qty - current_position > 0 then some (.buy, target_qty - current_position)
     else none)
  else if action = .SELL ∧ confidence > 7/10 then
    (if current_position - target_qty > 0 then some (.sell, current_position - target_qty)
     else none)
  else none

/-- Lexicographic order on Python `datetime`s sharing the same date:
compares `(hour, minute, second, microsecond)`. Used to embed the
comparisons `market_open <= now <= market_close` at `main.py` line 37. -/
def dt4LE : ℕ × ℕ × ℕ × ℕ → ℕ × ℕ × ℕ × ℕ → Bool
  | (h1, m1, s1, u1), (h2, m2, s2, u2) =>
    if h1 ≠ h2 then h1 < h2
    else if m1 ≠ m2 then m1 < m2
    else if s1 ≠ s2 then s1 < s2
    else u1 ≤ u2

/-- `is_market_open` (`main.py` lines 24-37) as a function of the current
exchange-local civil time. `weekday` is Python's convention (0 = Monday);
`now.replace(hour=h, minute=m, second=0)` keeps the microsecond of `now`,
so the open and close bounds carry `microsec` in their last component. -/
def is_market_open (weekday hour minute second microsec : ℕ) : Bool :=
  if weekday > 4 then false
  else
    dt4LE (9, 30, 0, microsec) (hour, minute, second, microsec) &&
    dt4LE (hour, minute, second, microsec) (16, 0, 0, microsec)

/-- Modelled from the spec: "within `[open_hour:open_minute,
close_hour:close_minute]` inclusive of both bounds" — the natural
lexicographic order on wall-clock times `(hour, minute, second)`. -/
def time3LE : ℕ × ℕ × ℕ → ℕ × ℕ × ℕ → Bool
  | (h1, m1, s1), (h2, m2, s2) =>
    if h1 ≠ h2 then h1 < h2
    else if m1 ≠ m2 then m1 < m2
    else s1 ≤ s2

/-- One market snapshot (`main.py` `get_market_data`): every field may be
absent. -/
structure Snapshot where
  price : Option ℚ
  volume : Option ℚ
  market_cap : Option ℚ
  name : Option String
deriving DecidableEq, Repr

/-- The all-null snapshot stored on a failed or empty fetch
(`main.py` lines 70-75 and 78-83). -/
def nullSnapshot : Snapshot := ⟨none, none, none, none⟩

/-- Outcome of one Polygon `get_symbol_details` call as `get_market_data`
sees it: the call raises, returns an object without `results`, or returns
usable details (each field still optional, via the `hasattr` probes). -/
inductive FetchResult where
  | raises
  | noResults
  | ok (snap : Snapshot)

/-- How `get_market_data` converts one fetch outcome into the stored
snapshot: an exception (caught at `main.py` line 76) and a missing
`results` attribute (line 68) both store the all-null snapshot. -/
def interpFetch : FetchResult → Snapshot
  | .raises => nullSnapshot
  | .noResults => nullSnapshot
  | .ok snap => snap

/-- `get_market_data` (`main.py` lines 39-85): builds the per-symbol
snapshot dictionary, one entry per requested symbol, in order. -/
def get_market_data (symbols : List String) (fetch : String → FetchResult) :
    List (String × Snapshot) :=
  symbols.map (fun sym => (sym, interpFetch (fetch sym)))

/-- Outcome of the per-symbol decision-and-order block
(`main.py` lines 141-175) for one symbol: the block raises somewhere
inside, or completes having submitted an order or not. -/
inductive StepResult where
  | raises
  | ok (order : Option (Side × ℚ))

/-- The catch at `main.py` lines 176-177: a raising symbol is logged and
skipped (no order), a completing symbol keeps its outcome. -/
def interpStep : StepResult → Option (Side × ℚ)
  | .raises => none
  | .ok order => order

/-- The controller's decision loop (`main.py` lines 140-177): every symbol
is visited in order, each wrapped in its own try/except. -/
def process_symbols (symbols : List String) (step : String → StepResult) :
    List (String × Option (Side × ℚ)) :=
  symbols.map (fun sym => (sym, interpStep (step sym)))

/-- Externally visible events of one open-market cycle, for pacing claims:
calls to the Market Snapshot Provider (Polygon, `main.py` line 55), calls
to the Position Tracker (`main.py` line 133), and sleeps (seconds). -/
inductive Event where
  | providerCall (sym : String)
  | positionCall (sym : String)
  | sleep (secs : ℕ)
deriving DecidableEq, Repr

/-- Whether an event is a call to the snapshot provider or position
tracker. -/
def isCall : Event → Bool
  | .providerCall _ => true
  | .positionCall _ => true
  | .sleep _ => false

/-- Whether an event is a sleep. -/
def isSleep : Event → Bool
  | .sleep _ => true
  | _ => false

/-- The provider-call/sleep trace of one open-market cycle of `main`
(`main.py` lines 127-180): `get_market_data` issues one Polygon call per
symbol back to back, the position loop one `get_positions` call per
symbol back to back, and the cycle ends with `time.sleep(5)`. -/
def cycle_trace (symbols : List String) : List Event :=
  symbols.map Event.providerCall ++ symbols.map Event.positionCall ++ [Event.sleep 5]

/-- Modelled from the spec: "every individual call to the Market Snapshot
Provider or Position Tracker is followed by a fixed delay (source uses
10-15s)" — between any two successive call events of the trace there is a
sleep of between `lo` and `hi` seconds. -/
def callsPaced (lo hi : ℕ) (tr : List Event) : Prop :=
  ∀ pre mid post a b, tr = pre ++ a :: (mid ++ b :: post) →
    isCall a = true → isCall b = true → (∀ c ∈ mid, isCall c = false) →
    ∃ d, Event.sleep d ∈ mid ∧ lo ≤ d ∧ d ≤ hi

/-- A concrete fetch outcome map for scenarios: the call for `"MSFT"`
raises, every other symbol returns a full snapshot. -/
def fetchEx : String → FetchResult :=
  fun sym => if sym = "MSFT" then .raises else .ok ⟨some 150, some 1000000, none, none⟩

/-- A concrete per-symbol step outcome map for scenarios: the block for
`"MSFT"` raises, every other symbol completes with a buy order of 5. -/
def stepEx : String → StepResult :=
  fun sym => if sym = "MSFT" then .raises else .ok (some (.buy, 5))

/-! ## Helper lemmas -/

lemma pyRound_nonneg (x : ℚ) (hx : 0 ≤ x) : 0 ≤ pyRound x := by
  have hf : (0:ℤ) ≤ ⌊x⌋ := Int.floor_nonneg.mpr hx
  unfold pyRound
  split_ifs <;> omega

lemma confidence_nonneg (s : ℚ) : 0 ≤ min 1 (|s| * 2) :=
  le_min zero_le_one (by positivity)

/-- What `get_action` returns when the model is loaded and its prediction
succeeds, as a single branch expression. -/
lemma get_action_model_eq (f : Obs → Except Unit ℚ) (price volume : Option ℚ)
    (pos s : ℚ) (hp : truthy price = true)
    (hf : f (observationOf price volume pos) = .ok s) :
    get_action (some f) price volume pos =
      if s > 1/10 then
        (.BUY, min 1 (|s| * 2), pos + (pyRound (10 * min 1 (|s| * 2) * s) : ℚ))
      else if s < -(1/10) then
        (.SELL, min 1 (|s| * 2), max 0 (pos - (pyRound (10 * min 1 (|s| * 2) * |s|) : ℚ)))
      else (.HOLD, min 1 (|s| * 2), pos) := by
  unfold get_action
  rw [hp]
  simp only [Bool.true_eq_false, if_false]
  rw [hf]

/-- `execute_decision` submits nothing when confidence does not clear the
0.7 gate. -/
lemma execute_decision_low_conf (a : Action) (conf target pos : ℚ)
    (h : ¬(conf > 7/10)) : execute_decision a conf target pos = none := by
  unfold execute_decision
  split_ifs with h1 h2 h3 h4 <;> first | rfl | exact absurd h1.2 h | exact absurd h3.2 h

/-! ## Claim theorems -/

/-- Claim C1: for every symbol, every snapshot with a truthy price, and every
finite current_position, when the scoring function yields signal `s` the
decision operation returns BUY with `target = pos + round(10·conf·s)` when
`s > 0.1`, SELL with `target = max 0 (pos − round(10·conf·|s|))` when
`s < −0.1`, and HOLD with `target = pos` otherwise, where
`conf = min 1 (2·|s|)`. -/
theorem C1_signal_thresholds (f : Obs → Except Unit ℚ) (price volume : Option ℚ)
    (pos s : ℚ) (hp : truthy price = true)
    (hf : f (observationOf price volume pos) = .ok s) :
    (s > 1/10 → get_action (some f) price volume pos
      = (.BUY, min 1 (2 * |s|), pos + (pyRound (10 * min 1 (2 * |s|) * s) : ℚ)))
    ∧ (s < -(1/10) → get_action (some f) price volume pos
      = (.SELL, min 1 (2 * |s|), max 0 (pos - (pyRound (10 * min 1 (2 * |s|) * |s|) : ℚ))))
    ∧ (-(1/10) ≤ s → s ≤ 1/10 → get_action (some f) price volume pos
      = (.HOLD, min 1 (2 * |s|), pos)) := by
  rw [get_action_model_eq f price volume pos s hp hf, mul_comm |s| 2]
  refine ⟨fun h => ?_, fun h => ?_, fun h1 h2 => ?_⟩
  · rw [if_pos h]
  · rw [if_neg (by linarith), if_pos h]
  · rw [if_neg (by linarith), if_neg (by linarith)]

/-- Witness for C1: signal 0.6 at price 150, position 5 gives
`(BUY, 1, 11)` — confidence saturates at 1 and
`target = 5 + round(10·1·0.6) = 11`. -/
theorem C1_signal_thresholds_witness :
    get_action (some fun _ => Except.ok (3/5)) (some 150) (some 1000000) 5
      = (Action.BUY, 1, 11) := by
  have h := (C1_signal_thresholds (fun _ => Except.ok (3/5)) (some 150) (some 1000000) 5 (3/5)
    (by norm_num [truthy]) rfl).1 (by norm_num)
  rw [h]
  norm_num [pyRound, abs]

/-- Claim C3: whenever the snapshot price is `None` or falsy, the decision
operation returns exactly `(HOLD, 0, current_position)`, for every model
variant and every current position. -/
theorem C3_missing_price (model : Option (Obs → Except Unit ℚ))
    (price volume : Option ℚ) (pos : ℚ) (hp : truthy price = false) :
    get_action model price volume pos = (.HOLD, 0, pos) := by
  unfold get_action
  rw [hp]
  simp

/-- Witness for C3: a `None` price with position 7 returns `(HOLD, 0, 7)`. -/
theorem C3_missing_price_witness :
    get_action none none none 7 = (Action.HOLD, 0, 7) :=
  C3_missing_price none none none 7 rfl

/-- Claim C4: whenever the scoring function yields signal `s`, the confidence
returned by the decision operation equals `min 1 (2·|s|)`, in all branches. -/
theorem C4_confidence_formula (f : Obs → Except Unit ℚ) (price volume : Option ℚ)
    (pos s : ℚ) (hp : truthy price = true)
    (hf : f (observationOf price volume pos) = .ok s) :
    (get_action (some f) price volume pos).2.1 = min 1 (2 * |s|) := by
  rw [get_action_model_eq f price volume pos s hp hf, mul_comm |s| 2]
  split_ifs <;> rfl

/-- Witness for C4: signal 0.3 gives confidence 0.6. -/
theorem C4_confidence_formula_witness :
    (get_action (some fun _ => Except.ok (3/10)) (some 100) none 0).2.1 = 3/5 := by
  have h := C4_confidence_formula (fun _ => Except.ok (3/10)) (some 100) none 0 (3/10)
    (by norm_num [truthy]) rfl
  rw [h]
  norm_num [abs]

/-- Claim C6: a scoring-function fault is caught and converted to exactly
`(HOLD, 0, current_position)`; the engine never propagates it. -/
theorem C6_fault_to_hold (f : Obs → Except Unit ℚ) (price volume : Option ℚ)
    (pos : ℚ) (hf : f (observationOf price volume pos) = .error ()) :
    get_action (some f) price volume pos = (.HOLD, 0, pos) := by
  unfold get_action
  cases hp : truthy price
  · simp
  · simp only [Bool.true_eq_false, if_false]
    rw [hf]

/-- Witness for C6: a raising scorer at price 100, position 3 returns
`(HOLD, 0, 3)`. -/
theorem C6_fault_to_hold_witness :
    get_action (some fun _ => Except.error ()) (some 100) none 3
      = (Action.HOLD, 0, 3) :=
  C6_fault_to_hold (fun _ => Except.error ()) (some 100) none 3 rfl

/-- Counterexample to claim C7 as stated: for `current_position = −5` and
signal `−0.5` the engine returns a SELL whose target quantity 0 is NOT
`≤ current_position` — the clamp at 0 raises the target above a negative
position, so `0 ≤ target ≤ current_position` fails. -/
theorem C7_counterexample :
    (get_action (some fun _ => Except.ok (-(1/2))) (some 100) none (-5)).1 = Action.SELL
    ∧ ¬((get_action (some fun _ => Except.ok (-(1/2))) (some 100) none (-5)).2.2 ≤ -5) := by
  have h : get_action (some fun _ => Except.ok (-(1/2))) (some 100) none (-5)
      = (Action.SELL, 1, 0) := by
    norm_num [get_action, truthy, pyRound, abs]
  rw [h]
  norm_num

/-- Claim C7 amended: for every signal and position, a BUY keeps
`target ≥ position`, a SELL keeps `target ≥ 0` and — whenever the current
position is itself nonnegative — `target ≤ position`, and otherwise the
target equals the position. -/
theorem C7_target_bounds (f : Obs → Except Unit ℚ) (price volume : Option ℚ)
    (pos s : ℚ) (hp : truthy price = true)
    (hf : f (observationOf price volume pos) = .ok s) :
    (s > 1/10 → (get_action (some f) price volume pos).1 = .BUY
      ∧ pos ≤ (get_action (some f) price volume pos).2.2)
    ∧ (s < -(1/10) → (get_action (some f) price volume pos).1 = .SELL
      ∧ 0 ≤ (get_action (some f) price volume pos).2.2
      ∧ (0 ≤ pos → (get_action (some f) price volume pos).2.2 ≤ pos))
    ∧ (-(1/10) ≤ s → s ≤ 1/10 → (get_action (some f) price volume pos).2.2 = pos) := by
  rw [get_action_model_eq f price volume pos s hp hf]
  refine ⟨fun h => ?_, fun h => ?_, fun h1 h2 => ?_⟩
  · rw [if_pos h]
    refine ⟨rfl, le_add_of_nonneg_right ?_⟩
    have : (0:ℤ) ≤ pyRound (10 * min 1 (|s| * 2) * s) := by
      refine pyRound_nonneg _ ?_
      have hc := confidence_nonneg s
      have hs : (0:ℚ) ≤ s := by linarith
      positivity
    exact_mod_cast this
  · rw [if_neg (by linarith), if_pos h]
    refine ⟨rfl, le_max_left 0 _, fun hpos => ?_⟩
    have : (0:ℤ) ≤ pyRound (10 * min 1 (|s| * 2) * |s|) := by
      refine pyRound_nonneg _ ?_
      have hc := confidence_nonneg s
      positivity
    have hcast : (0:ℚ) ≤ (pyRound (10 * min 1 (|s| * 2) * |s|) : ℚ) := by exact_mod_cast this
    exact max_le hpos (by linarith)
  · rw [if_neg (by linarith), if_neg (by linarith)]

/-- Witness for C7's amended theorem: signal −0.5 at position 20 yields a
SELL with target 15, inside `[0, 20]`. -/
theorem C7_target_bounds_witness :
    (get_action (some fun _ => Except.ok (-(1/2))) (some 100) none 20).1 = Action.SELL
    ∧ 0 ≤ (get_action (some fun _ => Except.ok (-(1/2))) (some 100) none 20).2.2
    ∧ (get_action (some fun _ => Except.ok (-(1/2))) (some 100) none 20).2.2 ≤ 20 := by
  have h := (C7_target_bounds (fun _ => Except.ok (-(1/2))) (some 100) none 20 (-(1/2))
    (by norm_num [truthy]) rfl).2.1 (by norm_num)
  exact ⟨h.1, h.2.1, h.2.2 (by norm_num)⟩

/-- Claim C2: the controller submits an order iff confidence strictly
exceeds 0.7 and the action's delta is strictly positive; the submitted
quantity is that delta, and confidence exactly 0.7 submits nothing. -/
theorem C2_order_gating :
    (∀ (a : Action) (conf target pos : ℚ),
      ((execute_decision a conf target pos).isSome = true
        ↔ conf > 7/10 ∧ ((a = .BUY ∧ target - pos > 0) ∨ (a = .SELL ∧ pos - target > 0)))
      ∧ execute_decision a conf target pos
        = (if conf > 7/10 ∧ a = .BUY ∧ target - pos > 0 then some (.buy, target - pos)
           else if conf > 7/10 ∧ a = .SELL ∧ pos - target > 0 then some (.sell, pos - target)
           else none))
    ∧ (∀ (a : Action) (target pos : ℚ), execute_decision a (7/10) target pos = none) := by
  constructor
  · intro a conf target pos
    have heq : execute_decision a conf target pos
        = (if conf > 7/10 ∧ a = .BUY ∧ target - pos > 0 then some (.buy, target - pos)
           else if conf > 7/10 ∧ a = .SELL ∧ pos - target > 0 then some (.sell, pos - target)
           else none) := by
      unfold execute_decision
      cases a <;> split_ifs <;> simp_all
    refine ⟨?_, heq⟩
    rw [heq]
    split_ifs with h1 h2
    · simp only [Option.isSome_some, true_iff]
      exact ⟨h1.1, Or.inl h1.2⟩
    · simp only [Option.isSome_some, true_iff]
      exact ⟨h2.1, Or.inr h2.2⟩
    · simp only [Option.isSome_none, Bool.false_eq_true, false_iff]
      rintro ⟨hconf, ⟨hb, hd⟩ | ⟨hs, hd⟩⟩
      · exact h1 ⟨hconf, hb, hd⟩
      · exact h2 ⟨hconf, hs, hd⟩
  · intro a target pos
    exact execute_decision_low_conf a (7/10) target pos (by norm_num)

/-- Claim C10: with no policy model loaded, every decision's confidence is
at most 0.6 (0.6 for the SELL rule when position > 10, 0.5 for the BUY
rule, 0.3 for the HOLD rule), so under the controller's strict `> 0.7`
gate the fallback strategy never submits an order. -/
theorem C10_fallback_never_orders (price volume : Option ℚ) (pos : ℚ) :
    (get_action none price volume pos).2.1 ≤ 6/10
    ∧ execute_decision (get_action none price volume pos).1
        (get_action none price volume pos).2.1
        (get_action none price volume pos).2.2 pos = none
    ∧ (truthy price = true → pos > 10 →
        (get_action none price volume pos).1 = .SELL
        ∧ (get_action none price volume pos).2.1 = 6/10)
    ∧ (truthy price = true → ¬(pos > 10) → price.getD 0 > 0 →
        (get_action none price volume pos).1 = .BUY
        ∧ (get_action none price volume pos).2.1 = 5/10)
    ∧ (truthy price = true → ¬(pos > 10) → ¬(price.getD 0 > 0) →
        (get_action none price volume pos).1 = .HOLD
        ∧ (get_action none price volume pos).2.1 = 3/10) := by
  have hconf : (get_action none price volume pos).2.1 ≤ 6/10 := by
    unfold get_action
    cases truthy price <;> simp
    · norm_num
    · split_ifs <;> norm_num
  refine ⟨hconf, execute_decision_low_conf _ _ _ _ (by linarith), ?_, ?_, ?_⟩
  · intro hp hpos
    unfold get_action
    rw [hp]
    simp [if_pos hpos]
  · intro hp hpos hprice
    unfold get_action
    rw [hp]
    simp [if_neg hpos, if_pos hprice]
  · intro hp hpos hprice
    unfold get_action
    rw [hp]
    simp [if_neg hpos, if_neg hprice]

/-- Witness for C10: fallback at price 100, position 11 gives a SELL with
confidence 0.6 and the controller submits nothing. -/
theorem C10_fallback_never_orders_witness :
    (get_action none (some 100) none 11).1 = Action.SELL
    ∧ (get_action none (some 100) none 11).2.1 = 6/10
    ∧ execute_decision (get_action none (some 100) none 11).1
        (get_action none (some 100) none 11).2.1
        (get_action none (some 100) none 11).2.2 11 = none := by
  have h := C10_fallback_never_orders (some 100) none 11
  have hs := h.2.2.1 (by norm_num [truthy]) (by norm_num)
  exact ⟨hs.1, hs.2, h.2.1⟩

/-- Claim C5: the market-hours predicate holds iff the exchange-local time
is a weekday (Monday 0 to Friday 4) and lies within 09:30-16:00 inclusive
of both bounds; concretely Monday 10:00 is open, Saturday 10:00 closed,
Monday 08:00 closed, Monday 16:00 exactly open. -/
theorem C5_market_hours :
    (∀ weekday hour minute second microsec : ℕ,
      is_market_open weekday hour minute second microsec
        = (decide (weekday ≤ 4) && time3LE (9, 30, 0) (hour, minute, second)
            && time3LE (hour, minute, second) (16, 0, 0)))
    ∧ is_market_open 0 10 0 0 0 = true
    ∧ is_market_open 5 10 0 0 0 = false
    ∧ is_market_open 0 8 0 0 0 = false
    ∧ is_market_open 0 16 0 0 0 = true := by
  refine ⟨fun weekday hour minute second microsec => ?_, by decide, by decide, by decide, by decide⟩
  have hlex : ∀ h1 m1 s1 h2 m2 s2 u : ℕ,
      dt4LE (h1, m1, s1, u) (h2, m2, s2, u) = time3LE (h1, m1, s1) (h2, m2, s2) := by
    intro h1 m1 s1 h2 m2 s2 u
    simp only [dt4LE, time3LE]
    split_ifs <;> simp_all <;> omega
  unfold is_market_open
  split_ifs with hw
  · have : decide (weekday ≤ 4) = false := by simp; omega
    rw [this]
    simp
  · have : decide (weekday ≤ 4) = true := by simp; omega
    rw [this, hlex, hlex]
    simp

/-- Claim C8: within a cycle every symbol of the batch is processed in
order; a raising snapshot fetch resolves to the all-null snapshot for that
symbol only, a raising per-symbol decision/order block is skipped (no
order), and neither failure removes any other symbol from the batch or
escapes to the caller. -/
theorem C8_per_symbol_isolation (symbols : List String)
    (fetch : String → FetchResult) (step : String → StepResult) :
    ((get_market_data symbols fetch).map Prod.fst = symbols)
    ∧ (∀ sym ∈ symbols, (sym, interpFetch (fetch sym)) ∈ get_market_data symbols fetch)
    ∧ (∀ sym, fetch sym = .raises → interpFetch (fetch sym) = nullSnapshot)
    ∧ ((process_symbols symbols step).map Prod.fst = symbols)
    ∧ (∀ sym ∈ symbols, (sym, interpStep (step sym)) ∈ process_symbols symbols step)
    ∧ (∀ sym, step sym = .raises → interpStep (step sym) = none) := by
  refine ⟨?_, ?_, ?_, ?_, ?_, ?_⟩
  · simp [get_market_data, List.map_map, Function.comp_def]
  · intro sym hs
    exact List.mem_map_of_mem _ hs
  · intro sym h
    rw [h]
    rfl
  · simp [process_symbols, List.map_map, Function.comp_def]
  · intro sym hs
    exact List.mem_map_of_mem _ hs
  · intro sym h
    rw [h]
    rfl

/-- Witness for C8: in the batch `["AAPL", "MSFT", "GOOG"]` where only the
calls for `"MSFT"` raise, `"MSFT"` carries the all-null snapshot and no
order, while `"AAPL"` and `"GOOG"` keep their fetched snapshot and their
order. -/
theorem C8_per_symbol_isolation_witness :
    ("MSFT", nullSnapshot) ∈ get_market_data ["AAPL", "MSFT", "GOOG"] fetchEx
    ∧ ("AAPL", (⟨some 150, some 1000000, none, none⟩ : Snapshot))
        ∈ get_market_data ["AAPL", "MSFT", "GOOG"] fetchEx
    ∧ ("GOOG", (⟨some 150, some 1000000, none, none⟩ : Snapshot))
        ∈ get_market_data ["AAPL", "MSFT", "GOOG"] fetchEx
    ∧ ("MSFT", (none : Option (Side × ℚ))) ∈ process_symbols ["AAPL", "MSFT", "GOOG"] stepEx
    ∧ ("GOOG", some (Side.buy, 5)) ∈ process_symbols ["AAPL", "MSFT", "GOOG"] stepEx := by
  obtain ⟨-, h2, -, -, h5, -⟩ :=
    C8_per_symbol_isolation ["AAPL", "MSFT", "GOOG"] fetchEx stepEx
  refine ⟨?_, ?_, ?_, ?_, ?_⟩
  · have := h2 "MSFT" (by simp)
    simpa [fetchEx, interpFetch, nullSnapshot] using this
  · have := h2 "AAPL" (by simp)
    simpa [fetchEx, interpFetch] using this
  · have := h2 "GOOG" (by simp)
    simpa [fetchEx, interpFetch] using this
  · have := h5 "MSFT" (by simp)
    simpa [stepEx, interpStep] using this
  · have := h5 "GOOG" (by simp)
    simpa [stepEx, interpStep] using this

/-- Counterexample to claim C9 as stated: in the cycle over symbols
`["A", "B"]` the two snapshot-provider calls are adjacent in the cycle's
event trace with no intervening sleep at all, so no fixed 10-15 second
delay follows each provider call. -/
theorem C9_counterexample : ¬ callsPaced 10 15 (cycle_trace ["A", "B"]) := by
  intro h
  have h2 := h [] [] [Event.positionCall "A", Event.positionCall "B", Event.sleep 5]
    (Event.providerCall "A") (Event.providerCall "B") rfl rfl rfl
    (by intro c hc; exact absurd hc (List.not_mem_nil c))
  obtain ⟨d, hd, -, -⟩ := h2
  exact absurd hd (List.not_mem_nil _)

/-- Claim C9 amended: no pacing delay follows provider or position-tracker
calls — the only sleep event in an open-market cycle's trace is the single
fixed 5-second end-of-cycle sleep. -/
theorem C9_no_pacing_delay (symbols : List String) :
    (cycle_trace symbols).filter isSleep = [Event.sleep 5] := by
  have hmap : ∀ g : String → Event, (∀ s, isSleep (g s) = false) →
      ∀ l : List String, (l.map g).filter isSleep = [] := by
    intro g hg l
    induction l with
    | nil => rfl
    | cons x xs ih => simp [List.filter_cons, hg x, ih]
  unfold cycle_trace
  rw [List.filter_append, List.filter_append,
    hmap Event.providerCall (fun _ => rfl) symbols,
    hmap Event.positionCall (fun _ => rfl) symbols]
  rfl

end Quant
